import Mathlib

/-!
Verification of the bloatless-react reactivity core (src/index.ts, with the
earlier revision src/unnamed/part_000).

Shallow embedding conventions:
* Subscriber callbacks, addition handlers and removal handlers are JavaScript
  function objects; we model each by its object identity, a `Nat`.  An
  operation that in the source invokes callbacks instead returns, next to the
  updated state, the ordered list of invocation events `(callbackId, argument)`
  it would perform.
* `JS Set` of objects keeps insertion order and deduplicates by object
  reference; we model it as a `List` kept duplicate-free by the `add`
  operation.
* JavaScript loose equality `==` is kept abstract: operations that use it take
  an explicit comparison function `eq : T → T → Bool`.
-/

set_option autoImplicit false

namespace BloatlessReact

universe u

/-- `JS Set.add` on a set of callback ids: appends unless already present
(insertion order preserved, no duplicates). -/
def jsSetAddNat (l : List Nat) (x : Nat) : List Nat :=
  if l.contains x then l else l ++ [x]

/-- The observable cell `State<T>` of src/index.ts lines 45-71: a current value
`_value` and the subscriber set `_bindings` (callback ids, insertion order). -/
structure State (T : Type u) where
  value : T
  bindings : List Nat
  deriving Repr, DecidableEq

/-- `State.callSubscriptions` (src/index.ts lines 63-65): invoke every binding
with the current value, in insertion order.  Returned as invocation events. -/
def State.callSubscriptions {T : Type u} (s : State T) : List (Nat × T) :=
  s.bindings.map (fun b => (b, s.value))

/-- The `State.value` setter (src/index.ts lines 57-61):
`if (this._value == newValue) return; this._value = newValue;
this.callSubscriptions();`.  Returns the updated cell and the subscriber
invocation events. -/
def State.setValue {T : Type u} (s : State T) (eq : T → T → Bool) (newValue : T) :
    State T × List (Nat × T) :=
  if eq s.value newValue then (s, [])
  else
    let s' : State T := { s with value := newValue }
    (s', s'.callSubscriptions)

/-- `State.subscribe` in the later revision (src/index.ts lines 67-70):
`this._bindings.add(fn); fn(this._value);` — registers the callback and
immediately invokes it once with the current value. -/
def State.subscribe {T : Type u} (s : State T) (fn : Nat) :
    State T × List (Nat × T) :=
  let s' : State T := { s with bindings := jsSetAddNat s.bindings fn }
  (s', [(fn, s'.value)])

/-- `State.subscribe` in the earlier revision (src/unnamed/part_000 lines
65-68): `this._bindings.add(fn);` — registers the callback only. -/
def State.subscribeV0 {T : Type u} (s : State T) (fn : Nat) :
    State T × List (Nat × T) :=
  ({ s with bindings := jsSetAddNat s.bindings fn }, [])

/-- Counting a mapped invocation event is counting the callback id. -/
theorem count_map_pair {T : Type u} [DecidableEq T] (l : List Nat) (fn : Nat) (x : T) :
    (l.map (fun b => (b, x))).count (fn, x) = l.count fn := by
  induction l with
  | nil => simp
  | cons a t ih =>
      by_cases h : a = fn
      · subst h
        simp [List.count_cons, ih]
      · simp [List.count_cons, ih, h, Prod.ext_iff]

/-- C1: writing a value that the guard `_value == newValue` accepts as equal
leaves the stored value unchanged and produces no subscriber invocation. -/
theorem setValue_eq_noop {T : Type u} (s : State T) (eq : T → T → Bool) (x : T)
    (h : eq s.value x = true) :
    State.setValue s eq x = (s, []) := by
  simp [State.setValue, h]

/-- Witness for C1 at a concrete cell. -/
theorem setValue_eq_noop_witness :
    State.setValue (T := Nat) ⟨7, [1, 2]⟩ (fun a b => a == b) 7 = (⟨7, [1, 2]⟩, []) :=
  setValue_eq_noop ⟨7, [1, 2]⟩ (fun a b => a == b) 7 (by decide)

/-- C2: writing a value the equality guard rejects stores it and invokes every
currently-registered subscriber with the new value, in registration order;
since `_bindings` is a set (no duplicates), each subscriber is invoked exactly
once. -/
theorem setValue_ne_notifies {T : Type u} [DecidableEq T] (s : State T)
    (eq : T → T → Bool) (x : T)
    (h : eq s.value x = false) (hnd : s.bindings.Nodup) :
    (State.setValue s eq x).1.value = x ∧
    (State.setValue s eq x).2 = s.bindings.map (fun b => (b, x)) ∧
    ∀ b ∈ s.bindings, (State.setValue s eq x).2.count (b, x) = 1 := by
  refine ⟨?_, ?_, ?_⟩
  · simp [State.setValue, h]
  · simp [State.setValue, h, State.callSubscriptions]
  · intro b hb
    have hc : s.bindings.count b = 1 := List.count_eq_one_of_mem hnd hb
    simp [State.setValue, h, State.callSubscriptions, count_map_pair, hc]

/-- Witness for C2 at a concrete cell. -/
theorem setValue_ne_notifies_witness :
    (State.setValue (T := Nat) ⟨7, [1, 2]⟩ (fun a b => a == b) 9).1.value = 9 ∧
    (State.setValue (T := Nat) ⟨7, [1, 2]⟩ (fun a b => a == b) 9).2 =
      [(1, 9), (2, 9)] ∧
    ∀ b ∈ [1, 2],
      ((State.setValue (T := Nat) ⟨7, [1, 2]⟩ (fun a b => a == b) 9).2.count (b, 9)) = 1 := by
  have h := setValue_ne_notifies (T := Nat) ⟨7, [1, 2]⟩ (fun a b => a == b) 9
    (by decide) (by decide)
  exact ⟨h.1, by simp [State.setValue, State.callSubscriptions], h.2.2⟩

/-- C8: the two revisions of `subscribe` differ exactly in replay-on-subscribe:
both add the callback to `_bindings` (set semantics, value untouched); the
later revision (src/index.ts) additionally invokes the callback once with the
current value; the earlier revision (src/unnamed/part_000) invokes nothing. -/
theorem subscribe_revisions_differ_by_replay {T : Type u} (s : State T) (fn : Nat) :
    (State.subscribe s fn).1 = (State.subscribeV0 s fn).1 ∧
    (State.subscribe s fn).1.bindings = jsSetAddNat s.bindings fn ∧
    (State.subscribe s fn).1.value = s.value ∧
    (State.subscribe s fn).2 = [(fn, s.value)] ∧
    (State.subscribeV0 s fn).2 = [] := by
  refine ⟨rfl, rfl, rfl, rfl, rfl⟩

/-- `JS Set.add` keeps a duplicate-free list duplicate-free and leaves exactly
one occurrence of the added element. -/
theorem jsSetAddNat_count (l : List Nat) (x : Nat) (h : l.Nodup) :
    (jsSetAddNat l x).Nodup ∧ (jsSetAddNat l x).count x = 1 := by
  unfold jsSetAddNat
  by_cases hm : x ∈ l
  · rw [if_pos (by simpa using hm)]
    exact ⟨h, List.count_eq_one_of_mem h hm⟩
  · rw [if_neg (by simpa using hm)]
    refine ⟨?_, ?_⟩
    · simp [List.nodup_append, h, hm]
    · simp [List.count_append, List.count_eq_zero_of_not_mem hm]

/-- C10: subscribing the same callback twice is idempotent for notification:
`_bindings` is a set, so after two `subscribe(fn)` calls it holds `fn` once,
and a subsequent value-changing write invokes `fn` exactly once. -/
theorem subscribe_twice_notifies_once {T : Type u} [DecidableEq T] (s : State T)
    (fn : Nat) (eq : T → T → Bool) (x : T) (hnd : s.bindings.Nodup)
    (h : eq ((State.subscribe (State.subscribe s fn).1 fn).1.value) x = false) :
    ((State.subscribe s fn).1.bindings.count fn = 1) ∧
    ((State.subscribe (State.subscribe s fn).1 fn).1.bindings.count fn = 1) ∧
    ((State.setValue (State.subscribe (State.subscribe s fn).1 fn).1 eq x).2.count
        (fn, x) = 1) := by
  have h1 := jsSetAddNat_count s.bindings fn hnd
  have h2 := jsSetAddNat_count (jsSetAddNat s.bindings fn) fn h1.1
  refine ⟨h1.2, ?_, ?_⟩
  · simpa [State.subscribe] using h2.2
  · have hcount : (State.subscribe (State.subscribe s fn).1 fn).1.bindings.count fn = 1 := by
      simpa [State.subscribe] using h2.2
    simp [State.setValue, h, State.callSubscriptions, count_map_pair, hcount]

/-- Witness for C10 at a concrete cell. -/
theorem subscribe_twice_notifies_once_witness :
    ((State.subscribe (T := Nat) ⟨7, [3]⟩ 5).1.bindings.count 5 = 1) ∧
    ((State.subscribe (State.subscribe (T := Nat) ⟨7, [3]⟩ 5).1 5).1.bindings.count 5 = 1) ∧
    ((State.setValue (State.subscribe (State.subscribe (T := Nat) ⟨7, [3]⟩ 5).1 5).1
        (fun a b => a == b) 9).2.count (5, 9) = 1) :=
  subscribe_twice_notifies_once ⟨7, [3]⟩ 5 (fun a b => a == b) 9 (by decide) (by decide)

/-! ### UUID (src/index.ts lines 18-28)

The constructor executes `this.value = v4;`: it stores the imported `v4`
function object itself and never calls it.  A JavaScript runtime value is
modelled as either a function reference (by object identity) or a string. -/

/-- A JavaScript runtime value as far as `UUID.value` is concerned: either a
reference to a function object (identified by a `Nat`) or a string. -/
inductive JsVal where
  | funcRef (id : Nat)
  | str (s : String)
  deriving Repr, DecidableEq

/-- The single function object `v4` imported from the uuid module
(src/index.ts line 1); one object, hence one fixed reference. -/
def v4Ref : JsVal := JsVal.funcRef 0

/-- `class UUID` (src/index.ts lines 18-28): its `value` field. -/
structure UUID where
  value : JsVal
  deriving Repr, DecidableEq

/-- The `UUID` constructor as written: `this.value = v4;` stores the uncalled
function reference.  `callIndex` says which dynamic call of `new UUID()` this
is; the constructor ignores it because the source draws on no freshness. -/
def UUID.new (_callIndex : Nat) : UUID := ⟨v4Ref⟩

/-- `UUID.toString` (src/index.ts lines 25-27): returns the stored value. -/
def UUID.toStr (u : UUID) : JsVal := u.value

/-- C3 (refuting): every two `UUID` instances, however far apart their
construction, hold the SAME stored value (the uncalled `v4` function
reference), and their `toString` results coincide — identifiers do not
distinguish distinct entities. -/
theorem uuid_instances_all_equal (i j : Nat) :
    (UUID.new i).value = (UUID.new j).value ∧
    (UUID.new i).toStr = (UUID.new j).toStr ∧
    (UUID.new i).value = v4Ref := by
  exact ⟨rfl, rfl, rfl⟩

/-! ### ListState (src/index.ts lines 73-106)

Items are `Identifiable` objects: modelled by their object reference `ref`
(JS Set membership and Map keying compare object references) together with the
reference `uuid` of the `UUID` object in their `uuid` field.  The underlying
`Set<T>` is an object too: `ListState` add/remove mutate it in place through
`this.value` without ever invoking the `State` value setter, so we model it
with its own object reference `ref` plus its insertion-ordered elements. -/

/-- An `Identifiable` item: its object reference and its `uuid` field's
object reference. -/
structure Item where
  ref : Nat
  uuid : Nat
  deriving Repr, DecidableEq

/-- The `Set<T>` object stored as the `ListState`'s cell value: its own object
reference and its elements in insertion order (duplicate-free by `ref`). -/
structure SetObj where
  ref : Nat
  elems : List Item
  deriving Repr, DecidableEq

/-- `JS Set.add(item)`: no-op when an element with the same object reference
is present, otherwise append. -/
def jsSetAdd (s : SetObj) (item : Item) : SetObj :=
  if s.elems.any (fun e => e.ref == item.ref) then s
  else { s with elems := s.elems ++ [item] }

/-- `JS Set.delete(item)`: drop the element with `item`'s object reference
(at most one exists in a real `Set`); no-op when absent. -/
def jsSetDelete (s : SetObj) (item : Item) : SetObj :=
  { s with elems := s.elems.filter (fun e => e.ref != item.ref) }

/-- `JS Map.get` on the removal-handler map keyed by `UUID` object reference. -/
def mapLookup (m : List (Nat × Nat)) (k : Nat) : Option Nat :=
  match m with
  | [] => none
  | p :: rest => if p.1 == k then some p.2 else mapLookup rest k

/-- `JS Map.set`: overwrite the entry for the key in place when present
(a `Map` holds at most one entry per key), else append a new entry. -/
def mapSet (m : List (Nat × Nat)) (k v : Nat) : List (Nat × Nat) :=
  match m with
  | [] => [(k, v)]
  | p :: rest => if p.1 == k then (k, v) :: rest else p :: mapSet rest k v

/-- `JS Map.delete`: remove the entry for the key. -/
def mapDelete (m : List (Nat × Nat)) (k : Nat) : List (Nat × Nat) :=
  m.filter (fun p => p.1 != k)

/-- An observable callback invocation performed by a `ListState` operation:
either a Cell-level subscriber notification (would arise only from the `State`
value setter), or an addition-handler or removal-handler call. -/
inductive LEvent where
  | cellNotify (subId : Nat) (value : SetObj)
  | additionCall (handler : Nat) (item : Item)
  | removalCall (handler : Nat) (item : Item)
  deriving Repr, DecidableEq

/-- Whether an event is a Cell-level subscriber notification. -/
def LEvent.isCellNotify : LEvent → Bool
  | .cellNotify _ _ => true
  | _ => false

/-- `class ListState<T> extends State<Set<T>>` (src/index.ts lines 73-106):
the inherited cell plus the addition-handler set and the removal-handler map
keyed by `UUID` object reference. -/
structure ListState where
  cell : State SetObj
  additionHandlers : List Nat
  removalHandlers : List (Nat × Nat)
  deriving Repr, DecidableEq

/-- One iteration of `ListState.add` (src/index.ts lines 82-85):
`this.value.add(item); this.additionHandlers.forEach((handler) =>
handler(item));` — in-place set insertion, then every addition handler invoked
with the item. -/
def ListState.addOne (ls : ListState) (item : Item) : ListState × List LEvent :=
  ({ ls with cell := { ls.cell with value := jsSetAdd ls.cell.value item } },
   ls.additionHandlers.map (fun h => LEvent.additionCall h item))

/-- `ListState.add(...items)` (src/index.ts lines 81-86): process the items in
order, each fully (insert, then fire its handlers) before the next. -/
def ListState.add : ListState → List Item → ListState × List LEvent
  | ls, [] => (ls, [])
  | ls, item :: rest =>
      let r := ListState.addOne ls item
      let r2 := ListState.add r.1 rest
      (r2.1, r.2 ++ r2.2)

/-- One iteration of `ListState.remove` (src/index.ts lines 89-96):
`this.value.delete(item);` then, if the removal-handler map holds an entry for
`item.uuid`, invoke it with the item and delete the entry. -/
def ListState.removeOne (ls : ListState) (item : Item) : ListState × List LEvent :=
  let ls1 : ListState :=
    { ls with cell := { ls.cell with value := jsSetDelete ls.cell.value item } }
  match mapLookup ls.removalHandlers item.uuid with
  | none => (ls1, [])
  | some h =>
      ({ ls1 with removalHandlers := mapDelete ls1.removalHandlers item.uuid },
       [LEvent.removalCall h item])

/-- `ListState.remove(...items)` (src/index.ts lines 88-97). -/
def ListState.remove : ListState → List Item → ListState × List LEvent
  | ls, [] => (ls, [])
  | ls, item :: rest =>
      let r := ListState.removeOne ls item
      let r2 := ListState.remove r.1 rest
      (r2.1, r.2 ++ r2.2)

/-- `ListState.handleAddition` (src/index.ts lines 99-101). -/
def ListState.handleAddition (ls : ListState) (handler : Nat) : ListState :=
  { ls with additionHandlers := jsSetAddNat ls.additionHandlers handler }

/-- `ListState.handleRemoval` (src/index.ts lines 103-105):
`this.removalHandlers.set(item.uuid, handler)`. -/
def ListState.handleRemoval (ls : ListState) (item : Item) (handler : Nat) : ListState :=
  { ls with removalHandlers := mapSet ls.removalHandlers item.uuid handler }

/-- After `Map.set(k, v)`, `Map.get(k)` yields `v`. -/
theorem mapLookup_mapSet (m : List (Nat × Nat)) (k v : Nat) :
    mapLookup (mapSet m k v) k = some v := by
  induction m with
  | nil => simp [mapSet, mapLookup]
  | cons p rest ih =>
      cases hp : (p.1 == k) with
      | true => simp [mapSet, mapLookup, hp]
      | false => simp [mapSet, mapLookup, hp, ih]

/-- After `Map.delete(k)`, `Map.get(k)` yields nothing. -/
theorem mapLookup_mapDelete (m : List (Nat × Nat)) (k : Nat) :
    mapLookup (mapDelete m k) k = none := by
  induction m with
  | nil => simp [mapDelete, mapLookup]
  | cons p rest ih =>
      by_cases hp : p.1 = k
      · simpa [mapDelete, hp] using ih
      · simpa [mapDelete, mapLookup, hp] using ih

/-- A `remove` iteration with no registered removal handler fires nothing. -/
theorem removeOne_events_of_lookup_none (ls : ListState) (item : Item)
    (hm : mapLookup ls.removalHandlers item.uuid = none) :
    (ListState.removeOne ls item).2 = [] := by
  simp [ListState.removeOne, hm]

/-- C4: after `handleRemoval(item, cb)`, the first `remove(item)` invokes `cb`
exactly once with `item` and deletes the registration; removing the same item
again invokes no removal callback. -/
theorem remove_consumes_removal_handler (ls : ListState) (item : Item) (cb : Nat) :
    (ListState.removeOne (ListState.handleRemoval ls item cb) item).2 =
      [LEvent.removalCall cb item] ∧
    mapLookup (ListState.removeOne (ListState.handleRemoval ls item cb) item).1.removalHandlers
      item.uuid = none ∧
    (ListState.removeOne
      (ListState.removeOne (ListState.handleRemoval ls item cb) item).1 item).2 = [] := by
  have h1 : mapLookup (ListState.handleRemoval ls item cb).removalHandlers item.uuid = some cb :=
    mapLookup_mapSet ls.removalHandlers item.uuid cb
  have h2 : mapLookup (ListState.removeOne (ListState.handleRemoval ls item cb) item).1.removalHandlers
      item.uuid = none := by
    simp [ListState.removeOne, h1, mapLookup_mapDelete]
  refine ⟨?_, h2, ?_⟩
  · simp [ListState.removeOne, h1]
  · exact removeOne_events_of_lookup_none _ item h2

/-- Counting addition-handler invocation events is counting the handler id. -/
theorem count_map_additionCall (l : List Nat) (h0 : Nat) (item : Item) :
    (l.map (fun h => LEvent.additionCall h item)).count (LEvent.additionCall h0 item) =
      l.count h0 := by
  induction l with
  | nil => simp
  | cons a t ih =>
      by_cases ha : a = h0
      · subst ha
        simp [List.count_cons, ih]
      · simp [List.count_cons, ih, ha]

/-- C5: `add(item)` inserts the item into the underlying set (it is a member
afterwards) and then invokes every registered addition handler exactly once
with the item; the variadic `add` processes each item completely (insert, then
notify) before the next one. -/
theorem add_inserts_and_notifies (ls : ListState) (item : Item) (rest : List Item)
    (hnd : ls.additionHandlers.Nodup) :
    ((ListState.addOne ls item).1.cell.value.elems.any (fun e => e.ref == item.ref) = true) ∧
    (ListState.addOne ls item).2 =
      ls.additionHandlers.map (fun h => LEvent.additionCall h item) ∧
    (∀ h ∈ ls.additionHandlers,
      (ListState.addOne ls item).2.count (LEvent.additionCall h item) = 1) ∧
    ListState.add ls (item :: rest) =
      ((ListState.add (ListState.addOne ls item).1 rest).1,
        (ListState.addOne ls item).2 ++ (ListState.add (ListState.addOne ls item).1 rest).2) := by
  refine ⟨?_, rfl, ?_, rfl⟩
  · simp only [ListState.addOne, jsSetAdd]
    by_cases hmem : ls.cell.value.elems.any (fun e => e.ref == item.ref)
    · simp [hmem]
    · simp [hmem]
  · intro h hmem
    have hc : ls.additionHandlers.count h = 1 := List.count_eq_one_of_mem hnd hmem
    simp [ListState.addOne, count_map_additionCall, hc]

/-- Witness for C5 at a concrete list state. -/
theorem add_inserts_and_notifies_witness :
    ((ListState.addOne ⟨⟨⟨0, []⟩, []⟩, [4], []⟩ ⟨1, 2⟩).1.cell.value.elems.any
        (fun e => e.ref == (1 : Nat)) = true) ∧
    (ListState.addOne ⟨⟨⟨0, []⟩, []⟩, [4], []⟩ ⟨1, 2⟩).2 =
      [LEvent.additionCall 4 ⟨1, 2⟩] ∧
    (∀ h ∈ [4],
      (ListState.addOne ⟨⟨⟨0, []⟩, []⟩, [4], []⟩ ⟨1, 2⟩).2.count
        (LEvent.additionCall h ⟨1, 2⟩) = 1) := by
  have h := add_inserts_and_notifies ⟨⟨⟨0, []⟩, []⟩, [4], []⟩ ⟨1, 2⟩ [] (by decide)
  exact ⟨h.1, by simp [ListState.addOne, jsSetAdd], h.2.2.1⟩

/-- C6: removing an item absent from the set leaves the stored set unchanged
(and, the model being total, cannot throw); a removal handler registered for
the item's identifier still fires once and is deleted; with no registration
nothing fires. -/
theorem remove_absent_item (ls : ListState) (item : Item)
    (habs : ls.cell.value.elems.all (fun e => e.ref != item.ref) = true) :
    (ListState.removeOne ls item).1.cell.value = ls.cell.value ∧
    (∀ h, mapLookup ls.removalHandlers item.uuid = some h →
      (ListState.removeOne ls item).2 = [LEvent.removalCall h item] ∧
      mapLookup (ListState.removeOne ls item).1.removalHandlers item.uuid = none) ∧
    (mapLookup ls.removalHandlers item.uuid = none →
      (ListState.removeOne ls item).2 = []) := by
  have hdel : jsSetDelete ls.cell.value item = ls.cell.value := by
    have : ls.cell.value.elems.filter (fun e => e.ref != item.ref) = ls.cell.value.elems :=
      List.filter_eq_self.mpr (by simpa [List.all_eq_true] using habs)
    simp [jsSetDelete, this]
  refine ⟨?_, ?_, ?_⟩
  · cases hm : mapLookup ls.removalHandlers item.uuid with
    | none => simp [ListState.removeOne, hm, hdel]
    | some h => simp [ListState.removeOne, hm, hdel]
  · intro h hm
    constructor
    · simp [ListState.removeOne, hm]
    · simp [ListState.removeOne, hm, mapLookup_mapDelete]
  · intro hm
    simp [ListState.removeOne, hm]

/-- Witness for C6 at a concrete list state holding a removal registration for
an item that is not in the set. -/
theorem remove_absent_item_witness :
    (ListState.removeOne ⟨⟨⟨0, [⟨5, 6⟩]⟩, []⟩, [], [(2, 9)]⟩ ⟨1, 2⟩).1.cell.value =
      (⟨0, [⟨5, 6⟩]⟩ : SetObj) ∧
    (ListState.removeOne ⟨⟨⟨0, [⟨5, 6⟩]⟩, []⟩, [], [(2, 9)]⟩ ⟨1, 2⟩).2 =
      [LEvent.removalCall 9 ⟨1, 2⟩] ∧
    mapLookup (ListState.removeOne ⟨⟨⟨0, [⟨5, 6⟩]⟩, []⟩, [], [(2, 9)]⟩ ⟨1, 2⟩).1.removalHandlers
      2 = none := by
  have h := remove_absent_item ⟨⟨⟨0, [⟨5, 6⟩]⟩, []⟩, [], [(2, 9)]⟩ ⟨1, 2⟩ (by decide)
  have h2 := h.2.1 9 (by decide)
  exact ⟨h.1, h2.1, h2.2⟩

/-- Frame part of C9 for `add`: no Cell-level notification, set object
reference and subscriber list untouched. -/
theorem add_frame (ls : ListState) (items : List Item) :
    ((ListState.add ls items).2.all (fun e => !e.isCellNotify) = true) ∧
    (ListState.add ls items).1.cell.value.ref = ls.cell.value.ref ∧
    (ListState.add ls items).1.cell.bindings = ls.cell.bindings := by
  induction items generalizing ls with
  | nil => simp [ListState.add]
  | cons item rest ih =>
      have href : (jsSetAdd ls.cell.value item).ref = ls.cell.value.ref := by
        unfold jsSetAdd
        split <;> rfl
      have h := ih (ListState.addOne ls item).1
      refine ⟨?_, ?_, ?_⟩
      · simp only [ListState.add, List.all_append]
        refine (Bool.and_eq_true _ _).mpr ⟨?_, h.1⟩
        simp [ListState.addOne, LEvent.isCellNotify]
      · calc (ListState.add ls (item :: rest)).1.cell.value.ref
            = (ListState.add (ListState.addOne ls item).1 rest).1.cell.value.ref := rfl
          _ = (ListState.addOne ls item).1.cell.value.ref := h.2.1
          _ = ls.cell.value.ref := href
      · exact h.2.2

/-- Frame part of C9 for `remove`. -/
theorem remove_frame (ls : ListState) (items : List Item) :
    ((ListState.remove ls items).2.all (fun e => !e.isCellNotify) = true) ∧
    (ListState.remove ls items).1.cell.value.ref = ls.cell.value.ref ∧
    (ListState.remove ls items).1.cell.bindings = ls.cell.bindings := by
  induction items generalizing ls with
  | nil => simp [ListState.remove]
  | cons item rest ih =>
      have hstep₁ : (ListState.removeOne ls item).1.cell.value.ref = ls.cell.value.ref := by
        cases hm : mapLookup ls.removalHandlers item.uuid with
        | none => simp [ListState.removeOne, hm, jsSetDelete]
        | some h => simp [ListState.removeOne, hm, jsSetDelete]
      have hstep₂ : (ListState.removeOne ls item).1.cell.bindings = ls.cell.bindings := by
        cases hm : mapLookup ls.removalHandlers item.uuid with
        | none => simp [ListState.removeOne, hm]
        | some h => simp [ListState.removeOne, hm]
      have hstep₃ : (ListState.removeOne ls item).2.all (fun e => !e.isCellNotify) = true := by
        cases hm : mapLookup ls.removalHandlers item.uuid with
        | none => simp [ListState.removeOne, hm]
        | some h => simp [ListState.removeOne, hm, LEvent.isCellNotify]
      have h := ih (ListState.removeOne ls item).1
      refine ⟨?_, ?_, ?_⟩
      · simp only [ListState.remove, List.all_append]
        exact (Bool.and_eq_true _ _).mpr ⟨hstep₃, h.1⟩
      · calc (ListState.remove ls (item :: rest)).1.cell.value.ref
            = (ListState.remove (ListState.removeOne ls item).1 rest).1.cell.value.ref := rfl
          _ = (ListState.removeOne ls item).1.cell.value.ref := h.2.1
          _ = ls.cell.value.ref := hstep₁
      · calc (ListState.remove ls (item :: rest)).1.cell.bindings
            = (ListState.remove (ListState.removeOne ls item).1 rest).1.cell.bindings := rfl
          _ = (ListState.removeOne ls item).1.cell.bindings := h.2.2
          _ = ls.cell.bindings := hstep₂

/-- C9: `add` and `remove` emit no Cell-level subscriber notification, and the
cell's stored value (the `Set` object reference) and its subscriber list are
unchanged: the addition/removal channels and the generic Cell-level channel
are disjoint. -/
theorem add_remove_cell_frame (ls : ListState) (items : List Item) :
    ((ListState.add ls items).2.all (fun e => !e.isCellNotify) = true) ∧
    (ListState.add ls items).1.cell.value.ref = ls.cell.value.ref ∧
    (ListState.add ls items).1.cell.bindings = ls.cell.bindings ∧
    ((ListState.remove ls items).2.all (fun e => !e.isCellNotify) = true) ∧
    (ListState.remove ls items).1.cell.value.ref = ls.cell.value.ref ∧
    (ListState.remove ls items).1.cell.bindings = ls.cell.bindings := by
  have ha := add_frame ls items
  have hr := remove_frame ls items
  exact ⟨ha.1, ha.2.1, ha.2.2, hr.1, hr.2.1, hr.2.2⟩

/-! ### createProxyState (src/index.ts lines 108-117)

`createProxyState` seeds `new State<T>(fn())` and subscribes the closure
`() => (proxyState.value = fn())` to every source.  The recompute closure
reads the sources' current values, so we model it as `fn : List A → T`
applied to the list of source values.  The internal listener is a closure,
not one of the `Nat`-identified external subscribers, so its effect is
embedded directly: `subscribe` in this revision immediately invokes the
listener once at registration (modelled inside `createProxyState`), and a
source write that passes the source's own equality guard runs the listener,
i.e. a `State.setValue` on the proxy (modelled in `writeSource`). -/

/-- The sources and the derived cell produced by `createProxyState`, as they
stand at some moment after construction (external subscribers may since have
been added to any of the cells). -/
structure ProxySystem (A : Type u) (T : Type u) where
  sources : List (State A)
  proxy : State T
  deriving Repr

/-- `createProxyState` (src/index.ts lines 108-117): seed the proxy with
`fn()`, then for each source, `subscribe` the internal listener — which, in
this revision, immediately runs the listener once: `proxyState.value = fn()`
(a `State.setValue` guarded write; source values are unchanged during
construction, so `fn` sees the same argument). -/
def createProxyState {A T : Type u} (eqT : T → T → Bool) (sources : List (State A))
    (fn : List A → T) : ProxySystem A T :=
  let vals := sources.map (fun s => s.value)
  let seed : State T := { value := fn vals, bindings := [] }
  let proxy := sources.foldl (fun p _s => (State.setValue p eqT (fn vals)).1) seed
  { sources := sources, proxy := proxy }

/-- An external write `sources[i].value = x` and the cascade the source code
runs for it: the source's setter checks its equality guard; on a real change
it stores `x`, notifies the source's own subscribers, and runs the internal
listener `proxyState.value = fn()` — a guarded `State.setValue` on the proxy.
Returns the updated system, the source-level invocation events and the
proxy-level invocation events. -/
def ProxySystem.writeSource {A T : Type u} (ps : ProxySystem A T)
    (eqA : A → A → Bool) (eqT : T → T → Bool) (fn : List A → T)
    (i : Nat) (x : A) : ProxySystem A T × List (Nat × A) × List (Nat × T) :=
  match ps.sources.get? i with
  | none => (ps, [], [])
  | some src =>
      if eqA src.value x then (ps, [], [])
      else
        let sources' := ps.sources.set i { src with value := x }
        let srcEvents := src.bindings.map (fun b => (b, x))
        let r := State.setValue ps.proxy eqT (fn (sources'.map (fun s => s.value)))
        ({ sources := sources', proxy := r.1 }, srcEvents, r.2)

/-- The construction-time replay writes re-store the seed value and fire into
an empty subscriber list, so the proxy cell ends construction exactly at the
seed. -/
theorem createProxyState_proxy_eq_seed {A T : Type u} (eqT : T → T → Bool)
    (sources : List (State A)) (fn : List A → T) :
    (createProxyState eqT sources fn).proxy =
      { value := fn (sources.map (fun s => s.value)), bindings := [] } := by
  unfold createProxyState
  generalize sources.map (fun s => s.value) = vals
  induction sources with
  | nil => rfl
  | cons s rest ih =>
      have hstep : (State.setValue (T := T) { value := fn vals, bindings := [] } eqT (fn vals)).1 =
          { value := fn vals, bindings := [] } := by
        unfold State.setValue
        split <;> rfl
      simpa [List.foldl_cons, hstep] using ih

/-- C7: the derived cell is seeded with `fn()` at construction; a source
write that the source's equality guard accepts as equal is a complete no-op
(no proxy subscriber fires); a genuine source change re-invokes `fn` and
writes the result through the normal `State` write path, so proxy subscribers
fire only when the derived value itself changes, and on such a change the
proxy holds exactly the recomputed value. -/
theorem createProxyState_spec {A T : Type u} (eqA : A → A → Bool) (eqT : T → T → Bool)
    (sources : List (State A)) (fn : List A → T) (ps : ProxySystem A T)
    (i : Nat) (x : A) (src : State A) :
    (createProxyState eqT sources fn).proxy.value = fn (sources.map (fun s => s.value)) ∧
    (ps.sources.get? i = some src → eqA src.value x = true →
      ProxySystem.writeSource ps eqA eqT fn i x = (ps, [], [])) ∧
    (ps.sources.get? i = some src → eqA src.value x = false →
      ((ProxySystem.writeSource ps eqA eqT fn i x).2.2 ≠ [] →
        eqT ps.proxy.value
          (fn ((ps.sources.set i { src with value := x }).map (fun s => s.value))) = false ∧
        (ProxySystem.writeSource ps eqA eqT fn i x).1.proxy.value =
          fn ((ps.sources.set i { src with value := x }).map (fun s => s.value)))) := by
  refine ⟨?_, ?_, ?_⟩
  · rw [createProxyState_proxy_eq_seed]
  · intro hget heq
    simp only [ProxySystem.writeSource, hget]
    rw [if_pos heq]
  · intro hget heq hne
    simp only [ProxySystem.writeSource, hget] at hne ⊢
    rw [if_neg (by simp [heq])] at hne ⊢
    cases heqT : eqT ps.proxy.value
        (fn ((ps.sources.set i { src with value := x }).map (fun s => s.value))) with
    | true =>
        exfalso
        apply hne
        unfold State.setValue
        rw [if_pos heqT]
    | false =>
        refine ⟨rfl, ?_⟩
        unfold State.setValue
        rw [if_neg (by rw [heqT]; exact Bool.false_ne_true)]

/-- Witness for C7: a one-source system; an equal write is a complete no-op,
and a real change recomputes the derived value through the write path. -/
theorem createProxyState_spec_witness :
    (createProxyState (A := Nat) (T := Nat) (fun a b => a == b) [⟨4, []⟩]
        (fun vals => vals.foldl (· + ·) 10)).proxy.value = 14 ∧
    ProxySystem.writeSource (A := Nat) (T := Nat) ⟨[⟨4, []⟩], ⟨14, [3]⟩⟩
        (fun a b => a == b) (fun a b => a == b) (fun vals => vals.foldl (· + ·) 10) 0 4 =
      (⟨[⟨4, []⟩], ⟨14, [3]⟩⟩, [], []) ∧
    (ProxySystem.writeSource (A := Nat) (T := Nat) ⟨[⟨4, []⟩], ⟨14, [3]⟩⟩
        (fun a b => a == b) (fun a b => a == b) (fun vals => vals.foldl (· + ·) 10) 0 9).1.proxy.value = 19 := by
  have h1 := createProxyState_spec (A := Nat) (T := Nat) (fun a b => a == b) (fun a b => a == b)
    [⟨4, []⟩] (fun vals => vals.foldl (· + ·) 10) ⟨[⟨4, []⟩], ⟨14, [3]⟩⟩ 0 4 ⟨4, []⟩
  have h2 := createProxyState_spec (A := Nat) (T := Nat) (fun a b => a == b) (fun a b => a == b)
    [⟨4, []⟩] (fun vals => vals.foldl (· + ·) 10) ⟨[⟨4, []⟩], ⟨14, [3]⟩⟩ 0 9 ⟨4, []⟩
  refine ⟨h1.1, h1.2.1 rfl (by decide), ?_⟩
  have h3 := h2.2.2 rfl (by decide) (by decide)
  exact h3.2

end BloatlessReact
